import Mathlib

/-!
Verification of the robot-state query interface
(`planning_interface/robot_interface/src/wrap_python_robot_interface.cpp`)
against its specification.

The wrapper class `RobotInterfacePython` holds an immutable kinematic model
(`robot_model_`) and an optional state monitor (`current_state_monitor_`), and
serves model queries and live-state queries.  The kinematic model, the current
state monitor and the forward-kinematics engine the wrapper delegates to are
not among the provided source files; those components are modelled from the
specification (each such definition carries a doc comment starting
`Modelled from the spec:`).  The wrapper's own control flow (null checks,
start/wait discipline, result marshalling) is translated directly from the
C++ source.

Numeric joint values are modelled as `Int` (the C++ uses `double`; no settled
claim depends on real arithmetic), and a link pose is abstracted to the scalar
displacement composed along the kinematic chain (the claims concern only
whether a pose is produced, never its numeric content).
-/

namespace MoveitRobotInterface

/-- One variable's position limits, as in `moveit_msgs::JointLimits`. -/
structure VariableLimit where
  min_position : Int
  max_position : Int
deriving DecidableEq, Repr

/-- A joint of the kinematic model: its name, the names of the variables it
controls (in declared order) and the per-variable limits returned by
`JointModel::getVariableLimits`. -/
structure JointModel where
  name : String
  variableNames : List String
  limits : List VariableLimit
deriving DecidableEq, Repr

/-- A joint model group: its name, the names of its member joints
(`hasJointModel` tests membership) and its total controlled variable count
(`getVariableCount`). -/
structure JointModelGroup where
  name : String
  jointNames : List String
  variableCount : Nat
deriving DecidableEq, Repr

/-- A link of the kinematic model: its name, the ordered chain of joints from
the root to this link, and its static offset from the chain. -/
structure LinkModel where
  name : String
  chainJoints : List String
  offset : Int
deriving DecidableEq, Repr

/-- The immutable kinematic model (`robot_model_`): joints, links, groups (in
declaration order) and the model frame. -/
structure RobotModel where
  joints : List JointModel
  links : List LinkModel
  groups : List JointModelGroup
  modelFrame : String
deriving DecidableEq, Repr

namespace RobotModel

/-- `RobotModel::getJointModel(name)`: the joint with the given name, if any. -/
def getJointModel (m : RobotModel) (name : String) : Option JointModel :=
  m.joints.find? (fun j => j.name == name)

/-- `RobotModel::getJointModelGroup(name)`: the group with the given name, if
any. -/
def getJointModelGroup (m : RobotModel) (name : String) : Option JointModelGroup :=
  m.groups.find? (fun g => g.name == name)

/-- `RobotModel::getJointModelNames()`. -/
def getJointModelNames (m : RobotModel) : List String :=
  m.joints.map JointModel.name

/-- `RobotModel::getLinkModelNames()`. -/
def getLinkModelNames (m : RobotModel) : List String :=
  m.links.map LinkModel.name

/-- `RobotModel::getJointModelGroupNames()`. -/
def getJointModelGroupNames (m : RobotModel) : List String :=
  m.groups.map JointModelGroup.name

/-- All variable names of the model, in joint-declaration order; this is the
set of variables a full robot state must cover. -/
def allVariables (m : RobotModel) : List String :=
  (m.joints.map JointModel.variableNames).flatten

end RobotModel

/-- Modelled from the spec: the StateMonitor component (§4.3) — the
`CurrentStateMonitor` implementation the wrapper delegates to is not among the
provided sources.  It owns the joint value table (name → last-known value; the
spec's timestamps are omitted, no settled claim depends on them), an activity
flag, a count of ingestion subscriptions, and the set of variables required
for a full state. -/
structure StateMonitor where
  active : Bool
  subscriptions : Nat
  table : List (String × Int)
  requiredVariables : List String
deriving DecidableEq, Repr

namespace StateMonitor

/-- `CurrentStateMonitor::isActive()`. -/
def isActive (m : StateMonitor) : Bool :=
  m.active

/-- Modelled from the spec: `JointValueTable.isComplete(requiredVariables)` —
true iff every required variable has been set at least once (§4.2). -/
def isComplete (m : StateMonitor) : Bool :=
  m.requiredVariables.all (fun v => (m.table.lookup v).isSome)

/-- Modelled from the spec: `start()` (§4.3) — transition to Active and
subscribe to the external update source; idempotent if already Active (a
second start must not add a duplicate ingestion subscription). -/
def startStateMonitor (m : StateMonitor) : StateMonitor :=
  if m.active then m
  else { m with active := true, subscriptions := m.subscriptions + 1 }

/-- Modelled from the spec: `waitForFullState(timeoutSeconds)` (§4.3) — blocks
until the table is complete or the timeout elapses and returns whether
completeness was reached.  Real time is outside the embedding: in this
sequential model no ingestion happens during the wait, so the wait returns the
current completeness.  The timeout parameter bounds the (unmodelled) blocking
time and does not affect the returned value. -/
def waitForCurrentState (m : StateMonitor) (_timeoutSeconds : Nat) : Bool :=
  m.isComplete

/-- Modelled from the spec: `currentSnapshot()` (§4.3) — an immutable copy of
the joint value table, possibly partial or empty. -/
def getCurrentStateValues (m : StateMonitor) : List (String × Int) :=
  m.table

end StateMonitor

/-- Observable side effects of a query call: error/warning log lines, and the
act of blocking on `waitForCurrentState` (recording whether the full state was
reached). -/
inductive Effect where
  | logError
  | logWarn
  | waited (fullState : Bool)
deriving DecidableEq, Repr

/-- The wrapper object: an immutable kinematic model plus an optional current
state monitor, exactly the two fields of `RobotInterfacePython`. -/
structure RobotInterface where
  robot_model : RobotModel
  current_state_monitor : Option StateMonitor
deriving DecidableEq, Repr

/-- Modelled from the spec: the model source collaborator (§6) together with
the `RobotInterfacePython` constructor — `getSharedRobotModel` and
`getSharedStateMonitor` are not among the provided sources.  If the source
fails to resolve a model, construction fails hard and no interface object is
produced; otherwise the interface holds the resolved model and a freshly
wired, inactive monitor whose required variables are all model variables. -/
def constructInterface (modelSource : Option RobotModel) : Option RobotInterface :=
  match modelSource with
  | none => none
  | some m =>
      some { robot_model := m,
             current_state_monitor :=
               some { active := false, subscriptions := 0, table := [],
                      requiredVariables := m.allVariables } }

/-- Modelled from the spec: `ForwardKinematicsCache.linkPose` (§4.4) — the
forward-kinematics engine (`RobotState::getGlobalLinkTransform`) is not among
the provided sources.  The pose is computed by composing the chain of joint
transforms from the root using the joint values present in the snapshot; if
any joint along the chain is missing from the snapshot the result is `none`
(absence propagates, never a default pose).  The rigid transform is abstracted
to its scalar displacement. -/
def linkPose (m : RobotModel) (snap : List (String × Int)) (linkName : String) :
    Option Int :=
  match m.links.find? (fun l => l.name == linkName) with
  | none => none
  | some lk =>
      match lk.chainJoints.foldl
          (fun acc j => acc.bind (fun t => (snap.lookup j).map (fun v => t + v)))
          (some 0) with
      | none => none
      | some t => some (t + lk.offset)

/-- Modelled from the spec: `jointValues(snapshot, name)` (§4.4) — the
`RobotState::getJointState` path is not among the provided sources.  Returns
the values recorded in the snapshot for the joint's variables, in the joint's
declared variable order; empty if the name is unknown or no values are
recorded yet. -/
def jointValues (m : RobotModel) (snap : List (String × Int)) (name : String) :
    List Int :=
  match m.getJointModel name with
  | none => []
  | some jm => jm.variableNames.filterMap (fun v => snap.lookup v)

namespace RobotInterfacePython

/-- The snapshot a live-state query of `ri` is served from: the monitor's
current joint value table (empty when no monitor is wired). -/
def snapshotOf (ri : RobotInterface) : List (String × Int) :=
  match ri.current_state_monitor with
  | none => []
  | some m => m.table

/-- `getJointNames` (source lines 60–63): the model's joint names; reads only
the immutable model. -/
def getJointNames (ri : RobotInterface) : List String × RobotInterface × List Effect :=
  (ri.robot_model.getJointModelNames, ri, [])

/-- `getLinkNames` (source lines 65–68). -/
def getLinkNames (ri : RobotInterface) : List String × RobotInterface × List Effect :=
  (ri.robot_model.getLinkModelNames, ri, [])

/-- `getGroupNames` (source lines 70–73). -/
def getGroupNames (ri : RobotInterface) : List String × RobotInterface × List Effect :=
  (ri.robot_model.getJointModelGroupNames, ri, [])

/-- `getJointLimits` (source lines 75–91): the (min, max) pair of each
variable of the named joint; empty when the joint is unknown. -/
def getJointLimits (ri : RobotInterface) (name : String) :
    List (Int × Int) × RobotInterface × List Effect :=
  (match ri.robot_model.getJointModel name with
   | none => []
   | some jm => jm.limits.map (fun l => (l.min_position, l.max_position)),
   ri, [])

/-- `getPlanningFrame` (source lines 93–96). -/
def getPlanningFrame (ri : RobotInterface) : String × RobotInterface × List Effect :=
  (ri.robot_model.modelFrame, ri, [])

/-- `ensureCurrentState` (source lines 134–150): fail with an error log when
no monitor is wired; otherwise, if the monitor is not active, start it and
wait up to 1 second for the full state, warning when the full state is not
known; return whether state is available. -/
def ensureCurrentState (ri : RobotInterface) :
    Bool × RobotInterface × List Effect :=
  match ri.current_state_monitor with
  | none => (false, ri, [Effect.logError])
  | some m =>
      if m.isActive then (true, ri, [])
      else
        let m1 := m.startStateMonitor
        let full := m1.waitForCurrentState 1
        (true, { ri with current_state_monitor := some m1 },
         [Effect.waited full] ++ (if full then [] else [Effect.logWarn]))

/-- `getLinkPose` (source lines 98–120): empty when state is unavailable or
the link (or its pose) is unknown; otherwise the pose served from the
monitor's snapshot. -/
def getLinkPose (ri : RobotInterface) (name : String) :
    List Int × RobotInterface × List Effect :=
  match ensureCurrentState ri with
  | (ok, ri1, evs) =>
      if ok then
        match linkPose ri1.robot_model (snapshotOf ri1) name with
        | none => ([], ri1, evs)
        | some p => ([p], ri1, evs)
      else ([], ri1, evs)

/-- `getCurrentJointValues` (source lines 122–132): empty when state is
unavailable or the joint is unknown; otherwise the joint's variable values
served from the monitor's snapshot. -/
def getCurrentJointValues (ri : RobotInterface) (name : String) :
    List Int × RobotInterface × List Effect :=
  match ensureCurrentState ri with
  | (ok, ri1, evs) =>
      if ok then (jointValues ri1.robot_model (snapshotOf ri1) name, ri1, evs)
      else ([], ri1, evs)

/-- `getCurrentVariableValues` (source lines 152–173): fail with an error log
when no monitor is wired; otherwise start the monitor if needed, wait
unconditionally up to 1 second for the full state (warning when it is not
known), and return every (variable, value) pair of the monitor's snapshot. -/
def getCurrentVariableValues (ri : RobotInterface) :
    List (String × Int) × RobotInterface × List Effect :=
  match ri.current_state_monitor with
  | none => ([], ri, [Effect.logError])
  | some m =>
      let m1 := if m.isActive then m else m.startStateMonitor
      let full := m1.waitForCurrentState 1
      (m1.getCurrentStateValues, { ri with current_state_monitor := some m1 },
       [Effect.waited full] ++ (if full then [] else [Effect.logWarn]))

/-- The body of the loop in `findMinContainingGroup` (source lines 179–187),
applied to the group looked up for one group name: when the group contains
the joint, keep it if no group is held yet or the held group has a strictly
larger variable count. -/
def loopStep (jointName : String) (acc : Option JointModelGroup)
    (jmg : JointModelGroup) : Option JointModelGroup :=
  if jmg.jointNames.contains jointName then
    match acc with
    | none => some jmg
    | some g =>
        if g.variableCount > jmg.variableCount then some jmg else acc
  else acc

/-- `findMinContainingGroup` (source lines 175–189): iterate over the group
names in declaration order, look each group up by name, and keep the
containing group with the strictly smaller variable count; return the kept
group's name, or none when no group contains the joint.  (The C++ does not
null-check the lookup; the `none` arm keeps the accumulator and is
unreachable for names coming from the model itself.) -/
def findMinContainingGroup (ri : RobotInterface) (jointName : String) :
    Option String × RobotInterface × List Effect :=
  ((ri.robot_model.getJointModelGroupNames.foldl
      (fun (acc : Option JointModelGroup) gn =>
        match ri.robot_model.getJointModelGroup gn with
        | none => acc
        | some jmg => loopStep jointName acc jmg)
      none).map JointModelGroup.name,
   ri, [])

end RobotInterfacePython

/-- The specification's description of `minimalContainingGroup` (§4.1), taken
literally: among all groups containing the joint — the first one, in
group-declaration order, whose total controlled variable count is no larger
than that of any other containing group; none if no group contains the
joint. -/
def minimalContainingGroup (m : RobotModel) (jointName : String) : Option String :=
  let cs := m.groups.filter (fun g => g.jointNames.contains jointName)
  (cs.find? (fun g => cs.all (fun h => g.variableCount ≤ h.variableCount))).map
    JointModelGroup.name

/-! Helper lemmas for the `findMinContainingGroup` analysis. -/

/-- The choice the loop makes between the held group and a containing group:
the one with strictly fewer variables, the held one on ties. -/
def pickSmaller (g h : JointModelGroup) : JointModelGroup :=
  if g.variableCount > h.variableCount then h else g

/-- `loopStep` restricted to containing groups, on an optional accumulator. -/
def pickOpt (acc : Option JointModelGroup) (g : JointModelGroup) :
    Option JointModelGroup :=
  match acc with
  | none => some g
  | some x => some (pickSmaller x g)

lemma pickSmaller_le_left (g h : JointModelGroup) :
    (pickSmaller g h).variableCount ≤ g.variableCount := by
  unfold pickSmaller; split <;> omega

lemma pickSmaller_le_right (g h : JointModelGroup) :
    (pickSmaller g h).variableCount ≤ h.variableCount := by
  unfold pickSmaller; split <;> omega

lemma pickSmaller_cases (g h : JointModelGroup) :
    pickSmaller g h = g ∨ pickSmaller g h = h := by
  unfold pickSmaller; split
  · exact Or.inr rfl
  · exact Or.inl rfl

lemma loopStep_eq (jointName : String) (acc : Option JointModelGroup)
    (g : JointModelGroup) :
    RobotInterfacePython.loopStep jointName acc g =
      if g.jointNames.contains jointName then pickOpt acc g else acc := by
  cases acc with
  | none => simp only [RobotInterfacePython.loopStep, pickOpt]
  | some x =>
      simp only [RobotInterfacePython.loopStep, pickOpt, pickSmaller]
      split_ifs <;> rfl

lemma foldl_loopStep_filter (jointName : String) :
    ∀ (l : List JointModelGroup) (acc : Option JointModelGroup),
      l.foldl (RobotInterfacePython.loopStep jointName) acc =
        (l.filter (fun g => g.jointNames.contains jointName)).foldl pickOpt acc := by
  intro l
  induction l with
  | nil => intro acc; rfl
  | cons a t ih =>
      intro acc
      rw [List.foldl_cons, loopStep_eq, List.filter_cons]
      by_cases h : a.jointNames.contains jointName
      · rw [if_pos h, if_pos h, List.foldl_cons]
        exact ih (pickOpt acc a)
      · rw [if_neg h, if_neg h]
        exact ih acc

lemma foldl_pickOpt_some :
    ∀ (l : List JointModelGroup) (g : JointModelGroup),
      l.foldl pickOpt (some g) = some (l.foldl pickSmaller g) := by
  intro l
  induction l with
  | nil => intro g; rfl
  | cons a t ih => intro g; exact ih (pickSmaller g a)

lemma foldl_pickSmaller_mem :
    ∀ (t : List JointModelGroup) (a : JointModelGroup),
      t.foldl pickSmaller a ∈ a :: t := by
  intro t
  induction t with
  | nil => intro a; exact List.mem_singleton.mpr rfl
  | cons b t ih =>
      intro a
      rw [List.foldl_cons]
      have h := ih (pickSmaller a b)
      rcases List.mem_cons.mp h with h1 | h1
      · rw [h1]
        rcases pickSmaller_cases a b with h2 | h2
        · rw [h2]; exact List.mem_cons_self _ _
        · rw [h2]; exact List.mem_cons_of_mem _ (List.mem_cons_self _ _)
      · exact List.mem_cons_of_mem _ (List.mem_cons_of_mem _ h1)

lemma foldl_pickSmaller_le :
    ∀ (t : List JointModelGroup) (a x : JointModelGroup), x ∈ a :: t →
      (t.foldl pickSmaller a).variableCount ≤ x.variableCount := by
  intro t
  induction t with
  | nil =>
      intro a x hx
      rw [List.mem_singleton.mp hx]
      exact Nat.le.refl
  | cons b t ih =>
      intro a x hx
      rw [List.foldl_cons]
      have hhead : (t.foldl pickSmaller (pickSmaller a b)).variableCount ≤
          (pickSmaller a b).variableCount :=
        ih (pickSmaller a b) (pickSmaller a b) (List.mem_cons_self _ _)
      rcases List.mem_cons.mp hx with hxa | hx1
      · rw [hxa]; exact le_trans hhead (pickSmaller_le_left a b)
      · rcases List.mem_cons.mp hx1 with hxb | hx2
        · rw [hxb]; exact le_trans hhead (pickSmaller_le_right a b)
        · exact ih (pickSmaller a b) x (List.mem_cons_of_mem _ hx2)

lemma foldl_pickSmaller_split :
    ∀ (t : List JointModelGroup) (a : JointModelGroup),
      ∃ pre post, a :: t = pre ++ (t.foldl pickSmaller a) :: post ∧
        ∀ x ∈ pre, (t.foldl pickSmaller a).variableCount < x.variableCount := by
  intro t
  induction t with
  | nil =>
      intro a
      exact ⟨[], [], rfl, fun x hx => absurd hx (List.not_mem_nil x)⟩
  | cons b t ih =>
      intro a
      obtain ⟨pre, post, heq, hlt⟩ := ih (pickSmaller a b)
      have hr : (b :: t).foldl pickSmaller a = t.foldl pickSmaller (pickSmaller a b) :=
        rfl
      by_cases hab : a.variableCount > b.variableCount
      · have hpick : pickSmaller a b = b := by unfold pickSmaller; rw [if_pos hab]
        rw [hpick] at heq hlt
        cases pre with
        | nil =>
            rw [List.nil_append] at heq
            injection heq with h1 h2
            refine ⟨[a], post, ?_, ?_⟩
            · rw [hr, hpick, List.singleton_append, ← h1, ← h2]
            · intro x hx
              rw [List.mem_singleton] at hx
              rw [hx, hr, hpick, ← h1]
              omega
        | cons p pre2 =>
            rw [List.cons_append] at heq
            injection heq with h1 h2
            subst h1
            refine ⟨a :: b :: pre2, post, ?_, ?_⟩
            · rw [hr, hpick, List.cons_append, List.cons_append, ← h2]
            · intro x hx
              rw [hr, hpick]
              have hb := hlt b (List.mem_cons_self _ _)
              rcases List.mem_cons.mp hx with hxa | hx1
              · rw [hxa]; omega
              · rcases List.mem_cons.mp hx1 with hxb | hx2
                · rw [hxb]; exact hb
                · exact hlt x (List.mem_cons_of_mem _ hx2)
      · have hpick : pickSmaller a b = a := by unfold pickSmaller; rw [if_neg hab]
        rw [hpick] at heq hlt
        cases pre with
        | nil =>
            rw [List.nil_append] at heq
            injection heq with h1 h2
            refine ⟨[], b :: t, ?_, ?_⟩
            · rw [hr, hpick, List.nil_append, ← h1]
            · exact fun x hx => absurd hx (List.not_mem_nil x)
        | cons p pre2 =>
            rw [List.cons_append] at heq
            injection heq with h1 h2
            subst h1
            refine ⟨a :: b :: pre2, post, ?_, ?_⟩
            · rw [hr, hpick, List.cons_append, List.cons_append, ← h2]
            · intro x hx
              rw [hr, hpick]
              have ha := hlt a (List.mem_cons_self _ _)
              rcases List.mem_cons.mp hx with hxa | hx1
              · rw [hxa]; exact ha
              · rcases List.mem_cons.mp hx1 with hxb | hx2
                · rw [hxb]; omega
                · exact hlt x (List.mem_cons_of_mem _ hx2)

lemma find?_append_of (q : JointModelGroup → Bool) :
    ∀ (pre : List JointModelGroup) (r : JointModelGroup)
      (post : List JointModelGroup),
      (∀ x ∈ pre, q x = false) → q r = true →
      (pre ++ r :: post).find? q = some r := by
  intro pre
  induction pre with
  | nil =>
      intro r post hpre hr
      rw [List.nil_append]
      exact List.find?_cons_of_pos _ hr
  | cons p pre2 ih =>
      intro r post hpre hr
      have hp : q p = false := hpre p (List.mem_cons_self _ _)
      rw [List.cons_append, List.find?_cons_of_neg _ (by simp [hp])]
      exact ih r post (fun x hx => hpre x (List.mem_cons_of_mem _ hx)) hr

lemma find?_name_of_nodup :
    ∀ (l : List JointModelGroup),
      (l.map JointModelGroup.name).Nodup →
      ∀ g ∈ l, l.find? (fun x => x.name == g.name) = some g := by
  intro l
  induction l with
  | nil => intro _ g hg; cases hg
  | cons a t ih =>
      intro hnd g hg
      rw [List.map_cons, List.nodup_cons] at hnd
      rcases List.mem_cons.mp hg with rfl | hg2
      · exact List.find?_cons_of_pos _ (by simp)
      · have hne : (a.name == g.name) = false := by
          have hmem : g.name ∈ t.map JointModelGroup.name :=
            List.mem_map_of_mem _ hg2
          rw [beq_eq_false_iff_ne]
          intro h
          rw [h] at hnd
          exact hnd.1 hmem
        rw [List.find?_cons_of_neg _ (by simp [hne])]
        exact ih hnd.2 g hg2

lemma getJointModelGroup_of_mem (m : RobotModel)
    (hnd : (m.groups.map JointModelGroup.name).Nodup)
    (g : JointModelGroup) (hg : g ∈ m.groups) :
    m.getJointModelGroup g.name = some g :=
  find?_name_of_nodup m.groups hnd g hg

lemma find?_min_of_split (L : List JointModelGroup) (r : JointModelGroup)
    (pre post : List JointModelGroup) (hsplit : L = pre ++ r :: post)
    (hmin : ∀ x ∈ L, r.variableCount ≤ x.variableCount)
    (hpre : ∀ x ∈ pre, r.variableCount < x.variableCount) :
    L.find? (fun g => L.all (fun h => g.variableCount ≤ h.variableCount)) =
      some r := by
  subst hsplit
  have hrmem : r ∈ pre ++ r :: post :=
    List.mem_append_right _ (List.mem_cons_self _ _)
  apply find?_append_of _ pre r post
  · intro x hx
    rw [Bool.eq_false_iff]
    intro hall
    have hxr := List.all_eq_true.mp hall r hrmem
    rw [decide_eq_true_eq] at hxr
    have := hpre x hx
    omega
  · exact List.all_eq_true.mpr fun x hx => decide_eq_true (hmin x hx)

/-- A sample model with two groups containing `j1`: `G1` controls three
variables, `G2` two, matching the spec's tie-break example. -/
def sampleModelC1 : RobotModel :=
  { joints := [⟨"j1", ["j1/x"], [⟨-1, 1⟩]⟩, ⟨"j2", ["j2/x"], [⟨-1, 1⟩]⟩,
               ⟨"j3", ["j3/x"], [⟨-1, 1⟩]⟩],
    links := [],
    groups := [⟨"G1", ["j1", "j2", "j3"], 3⟩, ⟨"G2", ["j1", "j2"], 2⟩],
    modelFrame := "base" }

/-- Claim C1: for every joint name, `findMinContainingGroup` returns, among
all groups containing the joint, the one with the fewest total controlled
variables, ties resolved to the group first encountered in group-declaration
order, and none when no group contains the joint — i.e. it computes exactly
`minimalContainingGroup` of the specification.  The hypothesis that group
names are distinct is the model invariant (§3: groups form a name-keyed
set). -/
theorem findMinContainingGroup_matches_spec (ri : RobotInterface)
    (jointName : String)
    (hnd : (ri.robot_model.groups.map JointModelGroup.name).Nodup) :
    (RobotInterfacePython.findMinContainingGroup ri jointName).1 =
      minimalContainingGroup ri.robot_model jointName := by
  have h1 : (RobotInterfacePython.findMinContainingGroup ri jointName).1 =
      (ri.robot_model.getJointModelGroupNames.foldl
        (fun (acc : Option JointModelGroup) gn =>
          match ri.robot_model.getJointModelGroup gn with
          | none => acc
          | some jmg => RobotInterfacePython.loopStep jointName acc jmg)
        none).map JointModelGroup.name := rfl
  have hfold : ri.robot_model.getJointModelGroupNames.foldl
      (fun (acc : Option JointModelGroup) gn =>
        match ri.robot_model.getJointModelGroup gn with
        | none => acc
        | some jmg => RobotInterfacePython.loopStep jointName acc jmg)
      none
      = ri.robot_model.groups.foldl (RobotInterfacePython.loopStep jointName)
          none := by
    unfold RobotModel.getJointModelGroupNames
    rw [List.foldl_map]
    exact List.foldl_ext _ _ none fun acc g hg => by
      rw [getJointModelGroup_of_mem ri.robot_model hnd g hg]
  have h2 : minimalContainingGroup ri.robot_model jointName =
      ((ri.robot_model.groups.filter
          (fun g => g.jointNames.contains jointName)).find?
        (fun g => (ri.robot_model.groups.filter
            (fun g2 => g2.jointNames.contains jointName)).all
          (fun h => g.variableCount ≤ h.variableCount))).map
        JointModelGroup.name := rfl
  rw [h1, hfold, foldl_loopStep_filter, h2]
  cases hcs : ri.robot_model.groups.filter
      (fun g => g.jointNames.contains jointName) with
  | nil => rfl
  | cons a t =>
      rw [List.foldl_cons]
      have hstart : pickOpt none a = some a := rfl
      rw [hstart, foldl_pickOpt_some]
      obtain ⟨pre, post, heq, hlt⟩ := foldl_pickSmaller_split t a
      rw [find?_min_of_split (a :: t) (t.foldl pickSmaller a) pre post heq
        (foldl_pickSmaller_le t a) hlt]

/-- Witness for C1: on the sample model, both the source function and the
specification pick `G2` for joint `j1` (fewer variables wins). -/
theorem findMinContainingGroup_matches_spec_witness :
    (RobotInterfacePython.findMinContainingGroup
        ⟨sampleModelC1, none⟩ "j1").1 =
      minimalContainingGroup sampleModelC1 "j1" ∧
    minimalContainingGroup sampleModelC1 "j1" = some "G2" :=
  ⟨findMinContainingGroup_matches_spec ⟨sampleModelC1, none⟩ "j1" (by decide),
   by decide⟩

/-! Infrastructure lemmas about the monitor and the query control flow. -/

lemma startStateMonitor_table (m : StateMonitor) :
    m.startStateMonitor.table = m.table := by
  unfold StateMonitor.startStateMonitor; split <;> rfl

lemma startStateMonitor_isActive (m : StateMonitor) :
    m.startStateMonitor.isActive = true := by
  unfold StateMonitor.startStateMonitor StateMonitor.isActive
  split
  · assumption
  · rfl

lemma startStateMonitor_isComplete (m : StateMonitor) :
    m.startStateMonitor.isComplete = m.isComplete := by
  unfold StateMonitor.startStateMonitor StateMonitor.isComplete
  split <;> rfl

lemma startStateMonitor_of_active (m : StateMonitor) (h : m.active = true) :
    m.startStateMonitor = m := by
  unfold StateMonitor.startStateMonitor
  rw [if_pos h]

lemma setMonitor_self (ri : RobotInterface) (m : StateMonitor)
    (hm : ri.current_state_monitor = some m) :
    { ri with current_state_monitor := some m } = ri := by
  cases ri
  simp only at hm
  rw [RobotInterface.mk.injEq]
  exact ⟨rfl, hm.symm⟩

lemma ensureCurrentState_no_monitor (ri : RobotInterface)
    (hm : ri.current_state_monitor = none) :
    RobotInterfacePython.ensureCurrentState ri = (false, ri, [Effect.logError]) := by
  unfold RobotInterfacePython.ensureCurrentState
  rw [hm]

lemma ensureCurrentState_active (ri : RobotInterface) (m : StateMonitor)
    (hm : ri.current_state_monitor = some m) (ha : m.isActive = true) :
    RobotInterfacePython.ensureCurrentState ri = (true, ri, []) := by
  unfold RobotInterfacePython.ensureCurrentState
  rw [hm]
  simp only [ha, if_true]

lemma ensureCurrentState_inactive (ri : RobotInterface) (m : StateMonitor)
    (hm : ri.current_state_monitor = some m) (ha : m.isActive = false) :
    RobotInterfacePython.ensureCurrentState ri =
      (true, { ri with current_state_monitor := some m.startStateMonitor },
       [Effect.waited m.isComplete] ++
         (if m.isComplete then [] else [Effect.logWarn])) := by
  unfold RobotInterfacePython.ensureCurrentState
  rw [hm]
  simp only [ha, Bool.false_eq_true, if_false, StateMonitor.waitForCurrentState,
    startStateMonitor_isComplete]

lemma snapshotOf_after_ensure (ri : RobotInterface) (m : StateMonitor)
    (hm : ri.current_state_monitor = some m) :
    RobotInterfacePython.snapshotOf
        { ri with current_state_monitor := some m.startStateMonitor } =
      RobotInterfacePython.snapshotOf ri := by
  unfold RobotInterfacePython.snapshotOf
  rw [hm]
  simp only [startStateMonitor_table]

lemma getLinkPose_no_monitor (ri : RobotInterface) (name : String)
    (hm : ri.current_state_monitor = none) :
    RobotInterfacePython.getLinkPose ri name = ([], ri, [Effect.logError]) := by
  unfold RobotInterfacePython.getLinkPose
  rw [ensureCurrentState_no_monitor ri hm]
  rfl

lemma getLinkPose_active (ri : RobotInterface) (m : StateMonitor) (name : String)
    (hm : ri.current_state_monitor = some m) (ha : m.isActive = true) :
    RobotInterfacePython.getLinkPose ri name =
      ((match linkPose ri.robot_model m.table name with
        | none => []
        | some p => [p]), ri, []) := by
  unfold RobotInterfacePython.getLinkPose
  rw [ensureCurrentState_active ri m hm ha]
  have hsnap : RobotInterfacePython.snapshotOf ri = m.table := by
    unfold RobotInterfacePython.snapshotOf; rw [hm]
  show (match linkPose ri.robot_model (RobotInterfacePython.snapshotOf ri) name with
        | none => ([], ri, ([] : List Effect))
        | some p => ([p], ri, ([] : List Effect))) = _
  rw [hsnap]
  cases linkPose ri.robot_model m.table name <;> rfl

lemma getLinkPose_inactive (ri : RobotInterface) (m : StateMonitor) (name : String)
    (hm : ri.current_state_monitor = some m) (ha : m.isActive = false) :
    RobotInterfacePython.getLinkPose ri name =
      ((match linkPose ri.robot_model m.table name with
        | none => []
        | some p => [p]),
       { ri with current_state_monitor := some m.startStateMonitor },
       [Effect.waited m.isComplete] ++
         (if m.isComplete then [] else [Effect.logWarn])) := by
  unfold RobotInterfacePython.getLinkPose
  rw [ensureCurrentState_inactive ri m hm ha]
  have hsnap : RobotInterfacePython.snapshotOf
      { ri with current_state_monitor := some m.startStateMonitor } = m.table := by
    unfold RobotInterfacePython.snapshotOf
    simp only [startStateMonitor_table]
  show (match linkPose
          ({ ri with current_state_monitor := some m.startStateMonitor} :
            RobotInterface).robot_model
          (RobotInterfacePython.snapshotOf
            { ri with current_state_monitor := some m.startStateMonitor }) name with
        | none => ([], _, _)
        | some p => ([p], _, _)) = _
  rw [hsnap]
  cases linkPose ri.robot_model m.table name <;> rfl

lemma getCurrentJointValues_no_monitor (ri : RobotInterface) (name : String)
    (hm : ri.current_state_monitor = none) :
    RobotInterfacePython.getCurrentJointValues ri name =
      ([], ri, [Effect.logError]) := by
  unfold RobotInterfacePython.getCurrentJointValues
  rw [ensureCurrentState_no_monitor ri hm]
  rfl

lemma getCurrentJointValues_active (ri : RobotInterface) (m : StateMonitor)
    (name : String)
    (hm : ri.current_state_monitor = some m) (ha : m.isActive = true) :
    RobotInterfacePython.getCurrentJointValues ri name =
      (jointValues ri.robot_model m.table name, ri, []) := by
  unfold RobotInterfacePython.getCurrentJointValues
  rw [ensureCurrentState_active ri m hm ha]
  have hsnap : RobotInterfacePython.snapshotOf ri = m.table := by
    unfold RobotInterfacePython.snapshotOf; rw [hm]
  show (jointValues ri.robot_model (RobotInterfacePython.snapshotOf ri) name, ri,
        ([] : List Effect)) = _
  rw [hsnap]

lemma getCurrentJointValues_inactive (ri : RobotInterface) (m : StateMonitor)
    (name : String)
    (hm : ri.current_state_monitor = some m) (ha : m.isActive = false) :
    RobotInterfacePython.getCurrentJointValues ri name =
      (jointValues ri.robot_model m.table name,
       { ri with current_state_monitor := some m.startStateMonitor },
       [Effect.waited m.isComplete] ++
         (if m.isComplete then [] else [Effect.logWarn])) := by
  unfold RobotInterfacePython.getCurrentJointValues
  rw [ensureCurrentState_inactive ri m hm ha]
  have hsnap : RobotInterfacePython.snapshotOf
      { ri with current_state_monitor := some m.startStateMonitor } = m.table := by
    unfold RobotInterfacePython.snapshotOf
    simp only [startStateMonitor_table]
  show (jointValues
          ({ ri with current_state_monitor := some m.startStateMonitor} :
            RobotInterface).robot_model
          (RobotInterfacePython.snapshotOf
            { ri with current_state_monitor := some m.startStateMonitor }) name,
        _, _) = _
  rw [hsnap]

lemma getCurrentVariableValues_no_monitor (ri : RobotInterface)
    (hm : ri.current_state_monitor = none) :
    RobotInterfacePython.getCurrentVariableValues ri =
      ([], ri, [Effect.logError]) := by
  unfold RobotInterfacePython.getCurrentVariableValues
  rw [hm]

lemma getCurrentVariableValues_active (ri : RobotInterface) (m : StateMonitor)
    (hm : ri.current_state_monitor = some m) (ha : m.isActive = true) :
    RobotInterfacePython.getCurrentVariableValues ri =
      (m.table, ri,
       [Effect.waited m.isComplete] ++
         (if m.isComplete then [] else [Effect.logWarn])) := by
  unfold RobotInterfacePython.getCurrentVariableValues
  rw [hm]
  simp only [ha, if_true, setMonitor_self ri m hm, StateMonitor.waitForCurrentState,
    StateMonitor.getCurrentStateValues]

lemma getCurrentVariableValues_inactive (ri : RobotInterface) (m : StateMonitor)
    (hm : ri.current_state_monitor = some m) (ha : m.isActive = false) :
    RobotInterfacePython.getCurrentVariableValues ri =
      (m.table, { ri with current_state_monitor := some m.startStateMonitor },
       [Effect.waited m.isComplete] ++
         (if m.isComplete then [] else [Effect.logWarn])) := by
  unfold RobotInterfacePython.getCurrentVariableValues
  rw [hm]
  simp only [ha, Bool.false_eq_true, if_false, StateMonitor.waitForCurrentState,
    StateMonitor.getCurrentStateValues, startStateMonitor_isComplete,
    startStateMonitor_table]

/-! Lemmas about the forward-kinematics chain walk. -/

lemma chainFold_none_acc (snap : List (String × Int)) :
    ∀ (chain : List String),
      chain.foldl
        (fun acc j2 => acc.bind (fun t => (snap.lookup j2).map (fun v => t + v)))
        none = none := by
  intro chain
  induction chain with
  | nil => rfl
  | cons c t ih => exact ih

lemma chainFold_missing (snap : List (String × Int)) (j : String)
    (hnone : snap.lookup j = none) :
    ∀ (chain : List String) (acc : Option Int), j ∈ chain →
      chain.foldl
        (fun acc2 j2 =>
          acc2.bind (fun t => (snap.lookup j2).map (fun v => t + v)))
        acc = none := by
  intro chain
  induction chain with
  | nil => intro acc h; cases h
  | cons c t ih =>
      intro acc hmem
      rw [List.foldl_cons]
      rcases List.mem_cons.mp hmem with hc | ht
      · have hstep : (acc.bind fun t0 => (snap.lookup c).map fun v => t0 + v) =
            none := by
          rw [← hc, hnone]
          cases acc <;> rfl
        rw [hstep]
        exact chainFold_none_acc snap t
      · exact ih _ ht

lemma linkPose_missing_joint (m : RobotModel) (snap : List (String × Int))
    (lname : String) (lk : LinkModel) (j : String)
    (hlk : m.links.find? (fun l => l.name == lname) = some lk)
    (hj : j ∈ lk.chainJoints) (hnone : snap.lookup j = none) :
    linkPose m snap lname = none := by
  unfold linkPose
  rw [hlk]
  show (match lk.chainJoints.foldl
          (fun acc2 j2 =>
            acc2.bind (fun t => (snap.lookup j2).map (fun v => t + v)))
          (some 0) with
        | none => none
        | some t => some (t + lk.offset)) = none
  rw [chainFold_missing snap j hnone lk.chainJoints (some 0) hj]

/-! Unknown-name and association-list lemmas. -/

lemma getJointModel_of_not_mem (m : RobotModel) (name : String)
    (h : name ∉ m.joints.map JointModel.name) :
    m.getJointModel name = none := by
  unfold RobotModel.getJointModel
  rw [List.find?_eq_none]
  intro j hj hbeq
  rw [beq_iff_eq] at hbeq
  exact h (hbeq ▸ List.mem_map_of_mem JointModel.name hj)

lemma findLink_of_not_mem (m : RobotModel) (name : String)
    (h : name ∉ m.links.map LinkModel.name) :
    m.links.find? (fun l => l.name == name) = none := by
  rw [List.find?_eq_none]
  intro l hl hbeq
  rw [beq_iff_eq] at hbeq
  exact h (hbeq ▸ List.mem_map_of_mem LinkModel.name hl)

lemma linkPose_unknown_link (m : RobotModel) (snap : List (String × Int))
    (name : String) (h : name ∉ m.links.map LinkModel.name) :
    linkPose m snap name = none := by
  unfold linkPose
  rw [findLink_of_not_mem m name h]

lemma jointValues_unknown (m : RobotModel) (snap : List (String × Int))
    (name : String) (h : name ∉ m.joints.map JointModel.name) :
    jointValues m snap name = [] := by
  unfold jointValues
  rw [getJointModel_of_not_mem m name h]

lemma lookup_mem :
    ∀ (l : List (String × Int)) (k : String) (v : Int),
      l.lookup k = some v → (k, v) ∈ l := by
  intro l
  induction l with
  | nil => intro k v h; cases h
  | cons p t ih =>
      intro k v h
      obtain ⟨a, b⟩ := p
      rw [List.lookup_cons] at h
      by_cases hk : (k == a) = true
      · rw [hk] at h
        injection h with hbv
        rw [beq_iff_eq] at hk
        rw [hk, hbv]
        exact List.mem_cons_self _ _
      · rw [Bool.not_eq_true] at hk
        rw [hk] at h
        exact List.mem_cons_of_mem _ (ih k v h)

lemma mem_jointValues (m : RobotModel) (snap : List (String × Int))
    (name : String) (v : Int) (hv : v ∈ jointValues m snap name) :
    ∃ n, (n, v) ∈ snap := by
  unfold jointValues at hv
  cases hjm : m.getJointModel name with
  | none => rw [hjm] at hv; cases hv
  | some jm =>
      rw [hjm] at hv
      obtain ⟨a, _, ha⟩ := List.mem_filterMap.mp hv
      exact ⟨a, lookup_mem snap a v ha⟩

/-! Claim theorems. -/

/-- A two-joint arm whose link `hand` hangs off the chain
`shoulder`, `elbow`; used as a concrete instance for the live-state
claims. -/
def armModel : RobotModel :=
  { joints := [⟨"shoulder", ["shoulder"], [⟨-1, 1⟩]⟩,
               ⟨"elbow", ["elbow"], [⟨-1, 1⟩]⟩],
    links := [⟨"hand", ["shoulder", "elbow"], 2⟩],
    groups := [⟨"arm", ["shoulder", "elbow"], 2⟩],
    modelFrame := "base" }

/-- An active monitor over `armModel` knowing only `shoulder`: the snapshot is
incomplete. -/
def armMonitorPartial : StateMonitor :=
  { active := true, subscriptions := 1, table := [("shoulder", 0)],
    requiredVariables := ["shoulder", "elbow"] }

/-- The interface over `armModel` with the partial active monitor. -/
def armRI : RobotInterface :=
  { robot_model := armModel, current_state_monitor := some armMonitorPartial }

/-- Claim C2: for every link whose kinematic chain from the root includes a
joint whose value is absent from the current snapshot, `getLinkPose` returns
an empty result rather than a pose computed from default or fabricated joint
values. -/
theorem getLinkPose_absent_joint_empty (ri : RobotInterface) (lname : String)
    (lk : LinkModel) (j : String)
    (hlk : ri.robot_model.links.find? (fun l => l.name == lname) = some lk)
    (hj : j ∈ lk.chainJoints)
    (hnone : (RobotInterfacePython.snapshotOf ri).lookup j = none) :
    (RobotInterfacePython.getLinkPose ri lname).1 = [] := by
  cases hm : ri.current_state_monitor with
  | none => rw [getLinkPose_no_monitor ri lname hm]
  | some m =>
      have hsnap : RobotInterfacePython.snapshotOf ri = m.table := by
        unfold RobotInterfacePython.snapshotOf; rw [hm]
      rw [hsnap] at hnone
      have hlp := linkPose_missing_joint ri.robot_model m.table lname lk j hlk hj
        hnone
      cases ha : m.isActive with
      | false => rw [getLinkPose_inactive ri m lname hm ha, hlp]
      | true => rw [getLinkPose_active ri m lname hm ha, hlp]

/-- Witness for C2: on the arm whose snapshot lacks `elbow`, the pose of
`hand` is empty. -/
theorem getLinkPose_absent_joint_empty_witness :
    (RobotInterfacePython.getLinkPose armRI "hand").1 = [] :=
  getLinkPose_absent_joint_empty armRI "hand" ⟨"hand", ["shoulder", "elbow"], 2⟩
    "elbow" (by decide) (by decide) (by decide)

/-- Claim C3: queries on names not present in the model return empty results
and never raise: `getJointLimits` and `getCurrentJointValues` on an unknown
joint and `getLinkPose` on an unknown link are all empty (totality of the
definitions shows nothing is thrown). -/
theorem unknown_name_queries_empty (ri : RobotInterface) (name : String)
    (hj : name ∉ ri.robot_model.joints.map JointModel.name)
    (hl : name ∉ ri.robot_model.links.map LinkModel.name) :
    (RobotInterfacePython.getJointLimits ri name).1 = [] ∧
    (RobotInterfacePython.getCurrentJointValues ri name).1 = [] ∧
    (RobotInterfacePython.getLinkPose ri name).1 = [] := by
  refine ⟨?_, ?_, ?_⟩
  · show (match ri.robot_model.getJointModel name with
          | none => []
          | some jm => jm.limits.map fun l => (l.min_position, l.max_position)) =
        []
    rw [getJointModel_of_not_mem ri.robot_model name hj]
  · cases hm : ri.current_state_monitor with
    | none => rw [getCurrentJointValues_no_monitor ri name hm]
    | some m =>
        cases ha : m.isActive with
        | false =>
            rw [getCurrentJointValues_inactive ri m name hm ha]
            exact jointValues_unknown ri.robot_model m.table name hj
        | true =>
            rw [getCurrentJointValues_active ri m name hm ha]
            exact jointValues_unknown ri.robot_model m.table name hj
  · cases hm : ri.current_state_monitor with
    | none => rw [getLinkPose_no_monitor ri name hm]
    | some m =>
        have hlp := linkPose_unknown_link ri.robot_model m.table name hl
        cases ha : m.isActive with
        | false => rw [getLinkPose_inactive ri m name hm ha, hlp]
        | true => rw [getLinkPose_active ri m name hm ha, hlp]

/-- Witness for C3: the name `wheel` is neither a joint nor a link of the
arm; all three queries return empty. -/
theorem unknown_name_queries_empty_witness :
    (RobotInterfacePython.getJointLimits armRI "wheel").1 = [] ∧
    (RobotInterfacePython.getCurrentJointValues armRI "wheel").1 = [] ∧
    (RobotInterfacePython.getLinkPose armRI "wheel").1 = [] :=
  unknown_name_queries_empty armRI "wheel" (by decide) (by decide)

/-- Claim C5: if the model source fails to resolve, construction fails hard
and no interface object is produced; on success the constructed interface
holds exactly the resolved model, so every later model query operates on a
valid model. -/
theorem construction_requires_model :
    constructInterface none = none ∧
    ∀ m : RobotModel, ∃ ri : RobotInterface,
      constructInterface (some m) = some ri ∧ ri.robot_model = m :=
  ⟨rfl, fun _ => ⟨_, rfl, rfl⟩⟩

/-- Claim C6: with no StateMonitor wired, `ensureCurrentState` returns false
and logs at error level, and every live-state query returns an empty result
with the same error log instead of a hard failure. -/
theorem no_monitor_empty_results (ri : RobotInterface) (name : String)
    (hm : ri.current_state_monitor = none) :
    RobotInterfacePython.ensureCurrentState ri = (false, ri, [Effect.logError]) ∧
    RobotInterfacePython.getLinkPose ri name = ([], ri, [Effect.logError]) ∧
    RobotInterfacePython.getCurrentJointValues ri name =
      ([], ri, [Effect.logError]) ∧
    RobotInterfacePython.getCurrentVariableValues ri =
      ([], ri, [Effect.logError]) :=
  ⟨ensureCurrentState_no_monitor ri hm, getLinkPose_no_monitor ri name hm,
   getCurrentJointValues_no_monitor ri name hm,
   getCurrentVariableValues_no_monitor ri hm⟩

/-- The arm interface with no monitor wired. -/
def armRInoMonitor : RobotInterface :=
  { robot_model := armModel, current_state_monitor := none }

/-- Witness for C6: on the monitor-less arm interface every live-state query
returns empty with an error log. -/
theorem no_monitor_empty_results_witness :
    RobotInterfacePython.getCurrentVariableValues armRInoMonitor =
      ([], armRInoMonitor, [Effect.logError]) :=
  (no_monitor_empty_results armRInoMonitor "hand" rfl).2.2.2

/-- Claim C7: when the wait for full-state completeness times out, the
timeout is not a failure: a warning is logged, the query still proceeds, and
the caller receives the best-effort snapshot holding every variable known so
far (`getCurrentVariableValues` returns exactly the table; the other two
live-state queries, on the call that starts the monitor, serve their answer
from that same partial table). -/
theorem timeout_warns_and_serves (ri : RobotInterface) (m : StateMonitor)
    (name : String)
    (hm : ri.current_state_monitor = some m) (hinc : m.isComplete = false) :
    (Effect.logWarn ∈ (RobotInterfacePython.getCurrentVariableValues ri).2.2 ∧
     (RobotInterfacePython.getCurrentVariableValues ri).1 = m.table) ∧
    (m.isActive = false →
      Effect.logWarn ∈ (RobotInterfacePython.getLinkPose ri name).2.2 ∧
      (RobotInterfacePython.getLinkPose ri name).1 =
        (match linkPose ri.robot_model m.table name with
         | none => []
         | some p => [p]) ∧
      Effect.logWarn ∈ (RobotInterfacePython.getCurrentJointValues ri name).2.2 ∧
      (RobotInterfacePython.getCurrentJointValues ri name).1 =
        jointValues ri.robot_model m.table name) := by
  constructor
  · cases ha : m.isActive with
    | false =>
        rw [getCurrentVariableValues_inactive ri m hm ha, hinc]
        exact ⟨by simp, rfl⟩
    | true =>
        rw [getCurrentVariableValues_active ri m hm ha, hinc]
        exact ⟨by simp, rfl⟩
  · intro ha
    rw [getLinkPose_inactive ri m name hm ha,
        getCurrentJointValues_inactive ri m name hm ha, hinc]
    exact ⟨by simp, rfl, by simp, rfl⟩

/-- Witness for C7: the arm monitor knows only `shoulder` of the two required
variables; `getCurrentVariableValues` warns and still returns the one known
variable. -/
theorem timeout_warns_and_serves_witness :
    Effect.logWarn ∈ (RobotInterfacePython.getCurrentVariableValues armRI).2.2 ∧
    (RobotInterfacePython.getCurrentVariableValues armRI).1 =
      armMonitorPartial.table :=
  (timeout_warns_and_serves armRI armMonitorPartial "hand" rfl (by decide)).1

/-- Counterexample to C4 as stated: with the monitor already active but the
state incomplete, `getLinkPose` and `getCurrentJointValues` produce an empty
effect trace — no wait on full-state completeness is performed and no warning
is logged on this call, yet the query serves from the snapshot. -/
theorem live_query_always_waits_counterexample :
    armMonitorPartial.isActive = true ∧ armMonitorPartial.isComplete = false ∧
    (RobotInterfacePython.getLinkPose armRI "hand").2.2 = [] ∧
    (RobotInterfacePython.getCurrentJointValues armRI "shoulder").2.2 = [] := by
  decide

/-- Claim C4 (amended): every live-state query ensures the monitor is started
(the monitor is active afterwards); `getCurrentVariableValues` waits up to
the 1-second timeout on every call and warns exactly when the state is
incomplete, while `getLinkPose` and `getCurrentJointValues` wait only on the
call that finds the monitor inactive and starts it — when the monitor is
already active they serve directly from the snapshot with no wait and no
warning. -/
theorem live_query_wait_discipline (ri : RobotInterface) (m : StateMonitor)
    (name : String) (hm : ri.current_state_monitor = some m) :
    (Effect.waited m.isComplete ∈
        (RobotInterfacePython.getCurrentVariableValues ri).2.2 ∧
     (RobotInterfacePython.getCurrentVariableValues
         ri).2.1.current_state_monitor.map StateMonitor.isActive = some true ∧
     (Effect.logWarn ∈ (RobotInterfacePython.getCurrentVariableValues ri).2.2 ↔
        m.isComplete = false)) ∧
    (m.isActive = false →
      Effect.waited m.isComplete ∈
        (RobotInterfacePython.getLinkPose ri name).2.2 ∧
      Effect.waited m.isComplete ∈
        (RobotInterfacePython.getCurrentJointValues ri name).2.2) ∧
    (m.isActive = true →
      (RobotInterfacePython.getLinkPose ri name).2.2 = [] ∧
      (RobotInterfacePython.getCurrentJointValues ri name).2.2 = []) := by
  refine ⟨?_, ?_, ?_⟩
  · cases ha : m.isActive with
    | false =>
        rw [getCurrentVariableValues_inactive ri m hm ha]
        refine ⟨by simp, by simp [startStateMonitor_isActive], ?_⟩
        cases hC : m.isComplete <;> simp
    | true =>
        rw [getCurrentVariableValues_active ri m hm ha]
        refine ⟨by simp, ?_, ?_⟩
        · show ri.current_state_monitor.map StateMonitor.isActive = some true
          rw [hm]
          simp [ha]
        · cases hC : m.isComplete <;> simp
  · intro ha
    rw [getLinkPose_inactive ri m name hm ha,
        getCurrentJointValues_inactive ri m name hm ha]
    exact ⟨by simp, by simp⟩
  · intro ha
    rw [getLinkPose_active ri m name hm ha,
        getCurrentJointValues_active ri m name hm ha]
    exact ⟨rfl, rfl⟩

/-- An inactive monitor over the arm, knowing only `shoulder`. -/
def armMonitorIdle : StateMonitor :=
  { active := false, subscriptions := 0, table := [("shoulder", 0)],
    requiredVariables := ["shoulder", "elbow"] }

/-- The arm interface with the idle monitor. -/
def armRIidle : RobotInterface :=
  { robot_model := armModel, current_state_monitor := some armMonitorIdle }

/-- Witness for the amended C4: on the idle partial monitor,
`getCurrentVariableValues` performs the (failed) wait and `getLinkPose`
waits too, since this call starts the monitor. -/
theorem live_query_wait_discipline_witness :
    Effect.waited armMonitorIdle.isComplete ∈
      (RobotInterfacePython.getCurrentVariableValues armRIidle).2.2 ∧
    Effect.waited armMonitorIdle.isComplete ∈
      (RobotInterfacePython.getLinkPose armRIidle "hand").2.2 :=
  ⟨(live_query_wait_discipline armRIidle armMonitorIdle "hand" rfl).1.1,
   ((live_query_wait_discipline armRIidle armMonitorIdle "hand" rfl).2.1
     (by decide)).1⟩

/-- Claim C8: starting the StateMonitor is idempotent — a start on an active
monitor is the identity (same Active state, no new ingestion subscription), a
second start after a first changes nothing, the implicit start performed by a
live-state query leaves an already-active monitor's interface unchanged, and
start never transitions Active to Inactive. -/
theorem startStateMonitor_idempotent (m : StateMonitor) (ri : RobotInterface)
    (name : String) (hm : ri.current_state_monitor = some m)
    (ha : m.active = true) :
    m.startStateMonitor = m ∧
    m.startStateMonitor.subscriptions = m.subscriptions ∧
    (RobotInterfacePython.getCurrentVariableValues ri).2.1 = ri ∧
    (RobotInterfacePython.getLinkPose ri name).2.1 = ri ∧
    (RobotInterfacePython.getCurrentJointValues ri name).2.1 = ri ∧
    (∀ m2 : StateMonitor,
      m2.startStateMonitor.startStateMonitor = m2.startStateMonitor ∧
      m2.startStateMonitor.active = true) := by
  have hs := startStateMonitor_of_active m ha
  refine ⟨hs, by rw [hs], ?_, ?_, ?_, ?_⟩
  · rw [getCurrentVariableValues_active ri m hm ha]
  · rw [getLinkPose_active ri m name hm ha]
  · rw [getCurrentJointValues_active ri m name hm ha]
  · intro m2
    have h2 := startStateMonitor_isActive m2
    exact ⟨startStateMonitor_of_active _ h2, h2⟩

/-- Witness for C8: starting the already-active arm monitor changes nothing,
and a live-state query leaves the interface unchanged. -/
theorem startStateMonitor_idempotent_witness :
    armMonitorPartial.startStateMonitor = armMonitorPartial ∧
    (RobotInterfacePython.getCurrentVariableValues armRI).2.1 = armRI :=
  ⟨(startStateMonitor_idempotent armMonitorPartial armRI "hand" rfl rfl).1,
   (startStateMonitor_idempotent armMonitorPartial armRI "hand" rfl rfl).2.2.1⟩

/-- Claim C9: round-trip consistency — after `getCurrentVariableValues`,
every value returned by `getCurrentJointValues` for any joint over the same
underlying state appears among the variable values returned by the first
call. -/
theorem joint_values_subset_variable_values (ri : RobotInterface)
    (name : String) (v : Int)
    (hv : v ∈ (RobotInterfacePython.getCurrentJointValues
        (RobotInterfacePython.getCurrentVariableValues ri).2.1 name).1) :
    ∃ n, (n, v) ∈ (RobotInterfacePython.getCurrentVariableValues ri).1 := by
  cases hm : ri.current_state_monitor with
  | none =>
      rw [getCurrentVariableValues_no_monitor ri hm] at hv ⊢
      have hv2 : v ∈ (RobotInterfacePython.getCurrentJointValues ri name).1 := hv
      rw [getCurrentJointValues_no_monitor ri name hm] at hv2
      simp at hv2
  | some m =>
      cases ha : m.isActive with
      | true =>
          rw [getCurrentVariableValues_active ri m hm ha] at hv ⊢
          have hv2 : v ∈ (RobotInterfacePython.getCurrentJointValues ri name).1 :=
            hv
          rw [getCurrentJointValues_active ri m name hm ha] at hv2
          have hv3 : v ∈ jointValues ri.robot_model m.table name := hv2
          obtain ⟨n, hn⟩ := mem_jointValues ri.robot_model m.table name v hv3
          exact ⟨n, hn⟩
      | false =>
          rw [getCurrentVariableValues_inactive ri m hm ha] at hv ⊢
          have hv2 : v ∈ (RobotInterfacePython.getCurrentJointValues
              { ri with current_state_monitor := some m.startStateMonitor }
              name).1 := hv
          have hm2 : ({ ri with
              current_state_monitor := some m.startStateMonitor } :
              RobotInterface).current_state_monitor =
              some m.startStateMonitor := rfl
          rw [getCurrentJointValues_active _ m.startStateMonitor name hm2
            (startStateMonitor_isActive m)] at hv2
          have hv3 : v ∈ jointValues ri.robot_model m.startStateMonitor.table
              name := hv2
          rw [startStateMonitor_table] at hv3
          obtain ⟨n, hn⟩ := mem_jointValues ri.robot_model m.table name v hv3
          exact ⟨n, hn⟩

/-- A one-joint model and a monitor knowing its single variable. -/
def probeModel : RobotModel :=
  { joints := [⟨"j1", ["j1/a"], [⟨-1, 1⟩]⟩], links := [], groups := [],
    modelFrame := "base" }

/-- An active monitor over `probeModel` with `j1/a` recorded as 5. -/
def probeMonitor : StateMonitor :=
  { active := true, subscriptions := 1, table := [("j1/a", 5)],
    requiredVariables := ["j1/a"] }

/-- The interface over `probeModel`. -/
def probeRI : RobotInterface :=
  { robot_model := probeModel, current_state_monitor := some probeMonitor }

/-- Witness for C9: the value 5 served for joint `j1` appears in the variable
map returned by `getCurrentVariableValues`. -/
theorem joint_values_subset_variable_values_witness :
    ∃ n, (n, (5 : Int)) ∈
      (RobotInterfacePython.getCurrentVariableValues probeRI).1 :=
  joint_values_subset_variable_values probeRI "j1" 5 (by decide)

/-- One model-only query of the wrapper: the six operations that read only
the immutable kinematic model. -/
inductive ModelQuery where
  | jointNamesQ
  | linkNamesQ
  | groupNamesQ
  | jointLimitsQ (name : String)
  | planningFrameQ
  | minContainingGroupQ (jointName : String)

/-- Run one model-only query and keep its resulting interface and effects. -/
def runModelQuery (ri : RobotInterface) : ModelQuery → RobotInterface × List Effect
  | ModelQuery.jointNamesQ => (RobotInterfacePython.getJointNames ri).2
  | ModelQuery.linkNamesQ => (RobotInterfacePython.getLinkNames ri).2
  | ModelQuery.groupNamesQ => (RobotInterfacePython.getGroupNames ri).2
  | ModelQuery.jointLimitsQ name => (RobotInterfacePython.getJointLimits ri name).2
  | ModelQuery.planningFrameQ => (RobotInterfacePython.getPlanningFrame ri).2
  | ModelQuery.minContainingGroupQ j =>
      (RobotInterfacePython.findMinContainingGroup ri j).2

/-- Run a sequence of model-only queries, threading the interface and
collecting effects. -/
def runModelQueries (ri : RobotInterface) :
    List ModelQuery → RobotInterface × List Effect
  | [] => (ri, [])
  | q :: qs =>
      let r := runModelQuery ri q
      let rest := runModelQueries r.1 qs
      (rest.1, r.2 ++ rest.2)

lemma runModelQuery_eq (ri : RobotInterface) (q : ModelQuery) :
    runModelQuery ri q = (ri, []) := by
  cases q <;> rfl

/-- Claim C10: the model-only queries (`getJointNames`, `getLinkNames`,
`getGroupNames`, `getJointLimits`, `getPlanningFrame`,
`findMinContainingGroup`) read only the immutable kinematic model: any
sequence of them, in any order and any number of times, leaves the interface
— monitor activity state and joint-value table included — unchanged and
produces no effects (no start, no wait, no log). -/
theorem model_queries_pure (ri : RobotInterface) (qs : List ModelQuery) :
    runModelQueries ri qs = (ri, []) := by
  induction qs with
  | nil => rfl
  | cons q t ih =>
      simp only [runModelQueries, runModelQuery_eq, ih, List.nil_append]

end MoveitRobotInterface
